import Mathlib

/- Shallow embedding of the post-quantum-whatsapp relay server core:
   the socket event handlers of src/app.py (registration, key publication,
   disconnect, group creation, group messaging) and the group store of
   src/group.py.  Python dicts are modelled as association lists whose
   insert replaces in place and appends fresh keys at the end, matching
   dict update semantics; dict iteration then walks the entry list. -/

namespace PQWA

section AListOps

variable {α β : Type} [DecidableEq α]

/-- Python `d.get(k)`: first value stored under key `k`, if any. -/
def alookup : List (α × β) → α → Option β
  | [], _ => none
  | (k, v) :: t, a => if k = a then some v else alookup t a

/-- Python `d[k] = v`: replace the value of an existing key in place,
    or append a fresh key at the end. -/
def ainsert : List (α × β) → α → β → List (α × β)
  | [], a, b => [(a, b)]
  | (k, v) :: t, a, b => if k = a then (a, b) :: t else (k, v) :: ainsert t a b

/-- Python `d.pop(k, None)`: drop every entry stored under key `k`. -/
def aerase : List (α × β) → α → List (α × β)
  | [], _ => []
  | (k, v) :: t, a => if k = a then aerase t a else (k, v) :: aerase t a

/-- The keys of the association list are pairwise distinct (true of every
    state reachable from the empty dict through `ainsert`/`aerase`). -/
def keysNodup (l : List (α × β)) : Prop := (l.map Prod.fst).Nodup

instance (l : List (α × β)) : Decidable (keysNodup l) := by
  unfold keysNodup; infer_instance

theorem keysNodup_cons_elim {k : α} {v : β} {t : List (α × β)}
    (hn : keysNodup ((k, v) :: t)) : (∀ b : β, (k, b) ∉ t) ∧ keysNodup t := by
  have h := List.nodup_cons.mp (show (k :: t.map Prod.fst).Nodup from hn)
  exact ⟨fun b hb => h.1 (List.mem_map.mpr ⟨(k, b), hb, rfl⟩), h.2⟩

theorem keysNodup_cons_intro {k : α} {v : β} {t : List (α × β)}
    (hk : ∀ b : β, (k, b) ∉ t) (hn : keysNodup t) : keysNodup ((k, v) :: t) := by
  show (k :: t.map Prod.fst).Nodup
  refine List.nodup_cons.mpr ⟨?_, hn⟩
  intro hmem
  obtain ⟨⟨k', b⟩, hb, heq⟩ := List.mem_map.mp hmem
  have hk'k : k' = k := heq
  subst hk'k
  exact hk b hb

theorem alookup_ainsert_self (l : List (α × β)) (a : α) (b : β) :
    alookup (ainsert l a b) a = some b := by
  induction l with
  | nil => simp [ainsert, alookup]
  | cons p t ih =>
    obtain ⟨k, v⟩ := p
    by_cases h : k = a <;> simp [ainsert, alookup, h, ih]

theorem alookup_ainsert_ne (l : List (α × β)) {a a' : α} (b : β) (h : a' ≠ a) :
    alookup (ainsert l a b) a' = alookup l a' := by
  induction l with
  | nil => simp [ainsert, alookup, Ne.symm h]
  | cons p t ih =>
    obtain ⟨k, v⟩ := p
    by_cases hk : k = a
    · subst hk
      simp [ainsert, alookup, Ne.symm h, h]
    · by_cases hk' : k = a' <;> simp [ainsert, alookup, hk, hk', h, ih]

theorem alookup_aerase_self (l : List (α × β)) (a : α) :
    alookup (aerase l a) a = none := by
  induction l with
  | nil => simp [aerase, alookup]
  | cons p t ih =>
    obtain ⟨k, v⟩ := p
    by_cases h : k = a <;> simp [aerase, alookup, h, ih]

theorem alookup_aerase_ne (l : List (α × β)) {a a' : α} (h : a' ≠ a) :
    alookup (aerase l a) a' = alookup l a' := by
  induction l with
  | nil => simp [aerase, alookup]
  | cons p t ih =>
    obtain ⟨k, v⟩ := p
    by_cases hk : k = a
    · subst hk
      simp [aerase, alookup, Ne.symm h, h, ih]
    · by_cases hk' : k = a' <;> simp [aerase, alookup, hk, hk', h, ih]

/-- Re-inserting a key with the value it already holds leaves the dict alone. -/
theorem ainsert_of_alookup_eq (l : List (α × β)) (a : α) (b : β)
    (h : alookup l a = some b) : ainsert l a b = l := by
  induction l with
  | nil => simp [alookup] at h
  | cons p t ih =>
    obtain ⟨k, v⟩ := p
    by_cases hk : k = a
    · subst hk
      simp [alookup] at h
      simp [ainsert, h]
    · simp [alookup, hk] at h
      simp [ainsert, hk, ih h]

theorem alookup_mem {l : List (α × β)} {a : α} {b : β}
    (h : alookup l a = some b) : (a, b) ∈ l := by
  induction l with
  | nil => simp [alookup] at h
  | cons p t ih =>
    obtain ⟨k, v⟩ := p
    by_cases hk : k = a
    · subst hk
      simp [alookup] at h
      simp [h]
    · simp [alookup, hk] at h
      simp [ih h]

theorem alookup_of_mem_nodup {l : List (α × β)} {a : α} {b : β}
    (hn : keysNodup l) (hm : (a, b) ∈ l) : alookup l a = some b := by
  induction l with
  | nil => simp at hm
  | cons p t ih =>
    obtain ⟨k, v⟩ := p
    obtain ⟨hfresh, hrest⟩ := keysNodup_cons_elim hn
    rcases List.mem_cons.mp hm with h | h
    · obtain ⟨rfl, rfl⟩ : k = a ∧ v = b := by
        constructor <;> [exact (congrArg Prod.fst h).symm; exact (congrArg Prod.snd h).symm]
      simp [alookup]
    · have hka : k ≠ a := by
        intro hkeq
        subst hkeq
        exact hfresh b h
      simp [alookup, hka]
      exact ih hrest h

theorem mem_ainsert {l : List (α × β)} {a : α} {b : β} {p : α × β} :
    p ∈ ainsert l a b → p = (a, b) ∨ p ∈ l := by
  induction l with
  | nil => intro h; simp [ainsert] at h; simp [h]
  | cons q t ih =>
    obtain ⟨k, v⟩ := q
    by_cases hk : k = a
    · subst hk
      intro h
      rcases List.mem_cons.mp (by simpa [ainsert] using h) with h' | h'
      · exact Or.inl h'
      · exact Or.inr (List.mem_cons_of_mem _ h')
    · intro h
      rcases List.mem_cons.mp (by simpa [ainsert, hk] using h) with h' | h'
      · exact Or.inr (by simp [h'])
      · rcases ih h' with h'' | h''
        · exact Or.inl h''
        · exact Or.inr (List.mem_cons_of_mem _ h'')

theorem mem_ainsert_intro_new {l : List (α × β)} (a : α) (b : β) :
    (a, b) ∈ ainsert l a b :=
  alookup_mem (alookup_ainsert_self l a b)

theorem mem_ainsert_intro_old {l : List (α × β)} {p : α × β} (a : α) (b : β)
    (hp : p ∈ l) (hne : p.1 ≠ a) : p ∈ ainsert l a b := by
  induction l with
  | nil => simp at hp
  | cons q t ih =>
    obtain ⟨k, v⟩ := q
    by_cases hk : k = a
    · subst hk
      rcases List.mem_cons.mp hp with h | h
      · exact absurd (congrArg Prod.fst h) (by simpa using hne)
      · simp [ainsert]
        exact Or.inr h
    · rcases List.mem_cons.mp hp with h | h
      · simp [ainsert, hk, h]
      · simp [ainsert, hk]
        exact Or.inr (ih h)

theorem keysNodup_ainsert (l : List (α × β)) (a : α) (b : β)
    (hn : keysNodup l) : keysNodup (ainsert l a b) := by
  induction l with
  | nil => simpa [ainsert, keysNodup] using List.nodup_singleton a
  | cons p t ih =>
    obtain ⟨k, v⟩ := p
    obtain ⟨hfresh, hrest⟩ := keysNodup_cons_elim hn
    by_cases hk : k = a
    · subst hk
      simpa [ainsert] using keysNodup_cons_intro hfresh hrest
    · show keysNodup (if k = a then (a, b) :: t else (k, v) :: ainsert t a b)
      rw [if_neg hk]
      refine keysNodup_cons_intro ?_ (ih hrest)
      intro b' hb'
      rcases mem_ainsert hb' with h | h
      · exact hk (congrArg Prod.fst h)
      · exact hfresh b' h

theorem keysNodup_aerase (l : List (α × β)) (a : α)
    (hn : keysNodup l) : keysNodup (aerase l a) := by
  induction l with
  | nil => simpa [aerase] using hn
  | cons p t ih =>
    obtain ⟨k, v⟩ := p
    obtain ⟨hfresh, hrest⟩ := keysNodup_cons_elim hn
    by_cases hk : k = a
    · subst hk
      simpa [aerase] using ih hrest
    · show keysNodup (if k = a then aerase t a else (k, v) :: aerase t a)
      rw [if_neg hk]
      refine keysNodup_cons_intro ?_ (ih hrest)
      intro b' hb'
      exact hfresh b' (mem_aerase_sub hb')
where
  mem_aerase_sub {t' : List (α × β)} {a' : α} {p' : α × β} (h : p' ∈ aerase t' a') : p' ∈ t' := by
    induction t' with
    | nil => simpa [aerase] using h
    | cons q t'' ih' =>
      obtain ⟨k', v'⟩ := q
      by_cases hq : k' = a'
      · subst hq
        exact List.mem_cons_of_mem _ (ih' (by simpa [aerase] using h))
      · rcases List.mem_cons.mp (by simpa [aerase, hq] using h) with h' | h'
        · simp [h']
        · exact List.mem_cons_of_mem _ (ih' h')

theorem mem_aerase {l : List (α × β)} {a : α} {p : α × β} :
    p ∈ aerase l a ↔ p ∈ l ∧ p.1 ≠ a := by
  induction l with
  | nil => simp [aerase]
  | cons q t ih =>
    obtain ⟨k, v⟩ := q
    by_cases hk : k = a
    · subst hk
      constructor
      · intro h
        have h' := ih.mp (by simpa [aerase] using h)
        exact ⟨List.mem_cons_of_mem _ h'.1, h'.2⟩
      · rintro ⟨hp, hne⟩
        rcases List.mem_cons.mp hp with h' | h'
        · exact absurd (congrArg Prod.fst h') (by simpa using hne)
        · simpa [aerase] using ih.mpr ⟨h', hne⟩
    · constructor
      · intro h
        rcases List.mem_cons.mp (by simpa [aerase, hk] using h) with h' | h'
        · exact ⟨by simp [h'], by simp [h', hk]⟩
        · have h'' := ih.mp h'
          exact ⟨List.mem_cons_of_mem _ h''.1, h''.2⟩
      · rintro ⟨hp, hne⟩
        rcases List.mem_cons.mp hp with h' | h'
        · simp [aerase, hk, h']
        · simp [aerase, hk]
          exact Or.inr (ih.mpr ⟨h', hne⟩)

end AListOps

/- ===== Data model (src/app.py globals and src/group.py classes) ===== -/

/-- One entry of the `clients` dict of src/app.py:
    `{"name": username_or_None, "pubkey": base64_or_None}`.
    A missing/None/empty field is `none`/`some ""` as in Python. -/
structure ClientRecord where
  name : Option String
  pubkey : Option String
deriving DecidableEq, Repr

/-- A stored group message (the dict built in `on_send_group_message`). -/
structure GroupMessage where
  sender : String
  encrypted_message : Option String
  timestamp : Nat
deriving DecidableEq, Repr

/-- src/group.py `Group`.  `created_at` and the time used by
    `make_unique_id` come from the `now` argument threaded through the
    model in place of Python's `time.time()`. -/
structure Group where
  name : String
  admin_name : String
  members : List String
  group_id : String
  messages : List GroupMessage
  created_at : Nat
deriving DecidableEq, Repr

/-- src/group.py `Group.make_unique_id`: the sha256-and-truncate step is
    not modelled (no claim depends on the digest); the model keeps the
    pre-hash string `name + admin_name + str(time())`. -/
def make_unique_id (name admin_name : String) (now : Nat) : String :=
  name ++ admin_name ++ toString now

/-- src/group.py `Group.__init__`.  `member_names if member_names else []`
    is the identity on a (non-None) list, then the admin is appended when
    absent. -/
def Group.init (name admin_name : String) (member_names : List String) (now : Nat) : Group :=
  let members0 := if member_names.isEmpty then [] else member_names
  let members := if admin_name ∈ members0 then members0 else members0 ++ [admin_name]
  { name := name
    admin_name := admin_name
    members := members
    group_id := make_unique_id name admin_name now
    messages := []
    created_at := now }

/-- src/group.py `Group.add_message`. -/
def Group.add_message (g : Group) (message : GroupMessage) : Group :=
  { g with messages := g.messages ++ [message] }

/-- src/group.py `Group.add_member`: returns the new group and the bool result. -/
def Group.add_member (g : Group) (member_name : String) : Group × Bool :=
  if member_name ∉ g.members then ({ g with members := g.members ++ [member_name] }, true)
  else (g, false)

/-- src/group.py `Group.remove_member` (admin cannot be removed;
    `list.remove` drops the first occurrence). -/
def Group.remove_member (g : Group) (member_name : String) : Group × Bool :=
  if member_name = g.admin_name then (g, false)
  else if member_name ∈ g.members then ({ g with members := g.members.erase member_name }, true)
  else (g, false)

/-- src/group.py `Group.get_members`. -/
def Group.get_members (g : Group) : List String := g.members

/-- src/group.py `Group.is_member` (Python `username in self.members`;
    a non-string such as None is never in a list of strings). -/
def Group.is_member (g : Group) (username : Option String) : Bool :=
  match username with
  | some u => u ∈ g.members
  | none => false

/-- src/group.py `Group.is_admin`. -/
def Group.is_admin (g : Group) (username : Option String) : Bool :=
  username = some g.admin_name

/-- src/group.py `GroupManager`. -/
structure GroupManager where
  groups : List (String × Group)
  expiration_time : Nat
deriving DecidableEq, Repr

/-- src/group.py `GroupManager.create_group`: builds the group and stores
    it under its id; returns the updated store and the group. -/
def GroupManager.create_group (gm : GroupManager) (name admin_name : String)
    (member_names : List String) (now : Nat) : GroupManager × Group :=
  let group := Group.init name admin_name member_names now
  ({ gm with groups := ainsert gm.groups group.group_id group }, group)

/-- src/group.py `GroupManager.get_group`. -/
def GroupManager.get_group (gm : GroupManager) (group_id : String) : Option Group :=
  alookup gm.groups group_id

/-- The mutable module state of src/app.py: the `clients` and
    `username_to_sid` dicts and the `group_manager`.  `username_to_sid`
    is keyed by `Option String` because `on_pubkey` can install
    `data.get("name")`, which may be `None`, as a key. -/
structure ServerState where
  clients : List (String × ClientRecord)
  username_to_sid : List (Option String × String)
  group_manager : GroupManager
deriving DecidableEq, Repr

def initState : ServerState :=
  { clients := [], username_to_sid := [], group_manager := { groups := [], expiration_time := 86400 } }

/- ===== Outbound events (socketio emits) ===== -/

/-- Where an emit goes: `to=sid`, `broadcast=True`, or
    `broadcast=True, include_self=False`. -/
inductive Dest where
  | toSid (sid : String)
  | broadcastAll
  | broadcastOthers (sid : String)
deriving DecidableEq, Repr

/-- The payloads the modelled handlers emit. -/
inductive Payload where
  | userList (users : List (String × String))
  | registrationError (message : String)
  | registrationConfirmed (username : String)
  | userDisconnected (username : String)
  | peerPubkeys (keys : List (String × String))
  | groupError (message : String)
  | groupCreated (group_id : String) (name : String) (admin : String) (members : List String)
  | groupInvitation (group_id : String) (name : String) (admin : String) (members : List String)
  | recvGroupMessage (group_id : String) (group_name : String) (sender : String)
      (encrypted_message : Option String)
deriving DecidableEq, Repr

structure Out where
  payload : Payload
  dest : Dest
deriving DecidableEq, Repr

/- ===== Inbound event payloads (`data.get` fields) ===== -/

structure RegData where
  name : Option String
deriving DecidableEq, Repr

structure PubkeyData where
  name : Option String
  pubkey : Option String
deriving DecidableEq, Repr

structure CreateGroupData where
  name : Option String
  members : List String
deriving DecidableEq, Repr

structure GroupMsgData where
  group_id : Option String
  encrypted_message : Option String
deriving DecidableEq, Repr

/- ===== Handlers (src/app.py) ===== -/

/-- src/app.py `broadcast_user_list`'s dict comprehension
    `{clients[sid]["name"]: sid for sid in clients if clients[sid].get("name")}`:
    only truthy names, a later duplicate name overwriting an earlier one. -/
def user_map (clients : List (String × ClientRecord)) : List (String × String) :=
  clients.foldl
    (fun acc p =>
      match p.2.name with
      | some n => if n = "" then acc else ainsert acc n p.1
      | none => acc)
    []

/-- The dict comprehension of `on_pubkey`:
    `{sid: c["pubkey"] for sid, c in clients.items() if sid != request.sid and c.get("pubkey")}`. -/
def peer_pubkeys (clients : List (String × ClientRecord)) (request_sid : String) :
    List (String × String) :=
  clients.filterMap fun p =>
    if p.1 = request_sid then none
    else
      match p.2.pubkey with
      | some k => if k = "" then none else some (p.1, k)
      | none => none

/-- The success tail of `on_register_user` (after the availability check):
    store the record, index the name, confirm, broadcast presence. -/
def registerOk (request_sid username : String) (s : ServerState) : ServerState × List Out :=
  let clients' := ainsert s.clients request_sid { name := some username, pubkey := none }
  let uts' := ainsert s.username_to_sid (some username) request_sid
  ({ s with clients := clients', username_to_sid := uts' },
   [{ payload := .registrationConfirmed username, dest := .toSid request_sid },
    { payload := .userList (user_map clients'), dest := .broadcastAll }])

/-- src/app.py `on_register_user`. -/
def on_register_user (request_sid : String) (data : RegData) (s : ServerState) :
    ServerState × List Out :=
  match data.name with
  | none => (s, [])
  | some username =>
    if username = "" then (s, [])
    else
      match alookup s.username_to_sid (some username) with
      | some owner =>
        if owner ≠ request_sid then
          (s, [{ payload := .registrationError "Username already taken", dest := .toSid request_sid }])
        else registerOk request_sid username s
      | none => registerOk request_sid username s

/-- src/app.py `on_pubkey`. -/
def on_pubkey (request_sid : String) (data : PubkeyData) (s : ServerState) :
    ServerState × List Out :=
  match alookup s.clients request_sid with
  | some r =>
    let clients' := ainsert s.clients request_sid { r with pubkey := data.pubkey }
    ({ s with clients := clients' },
     [{ payload := .userList (user_map clients'), dest := .broadcastAll },
      { payload := .peerPubkeys (peer_pubkeys clients' request_sid), dest := .toSid request_sid }])
  | none =>
    let clients' := ainsert s.clients request_sid { name := data.name, pubkey := data.pubkey }
    let uts' := ainsert s.username_to_sid data.name request_sid
    ({ s with clients := clients', username_to_sid := uts' },
     [{ payload := .userList (user_map clients'), dest := .broadcastAll },
      { payload := .peerPubkeys (peer_pubkeys clients' request_sid), dest := .toSid request_sid }])

/-- src/app.py `on_disconnect`. -/
def on_disconnect (request_sid : String) (s : ServerState) : ServerState × List Out :=
  let client_info := alookup s.clients request_sid
  let clients' := aerase s.clients request_sid
  match client_info with
  | some r =>
    match r.name with
    | some username =>
      if username = "" then
        ({ s with clients := clients' },
         [{ payload := .userList (user_map clients'), dest := .broadcastAll }])
      else
        let uts' := aerase s.username_to_sid (some username)
        ({ s with clients := clients', username_to_sid := uts' },
         [{ payload := .userDisconnected username, dest := .broadcastOthers request_sid },
          { payload := .userList (user_map clients'), dest := .broadcastAll }])
    | none =>
      ({ s with clients := clients' },
       [{ payload := .userList (user_map clients'), dest := .broadcastAll }])
  | none =>
    ({ s with clients := clients' },
     [{ payload := .userList (user_map clients'), dest := .broadcastAll }])

/-- src/app.py `on_create_group`. -/
def on_create_group (request_sid : String) (data : CreateGroupData) (now : Nat)
    (s : ServerState) : ServerState × List Out :=
  match (alookup s.clients request_sid).bind ClientRecord.name with
  | none =>
    (s, [{ payload := .groupError "You must be registered to create a group", dest := .toSid request_sid }])
  | some admin_name =>
    if admin_name = "" then
      (s, [{ payload := .groupError "You must be registered to create a group", dest := .toSid request_sid }])
    else
      match data.name with
      | none =>
        (s, [{ payload := .groupError "Group name and members required", dest := .toSid request_sid }])
      | some group_name =>
        if group_name = "" ∨ data.members = [] then
          (s, [{ payload := .groupError "Group name and members required", dest := .toSid request_sid }])
        else
          let missing_members := data.members.filter fun m => (alookup s.username_to_sid (some m)).isNone
          if missing_members ≠ [] then
            (s, [{ payload := .groupError ("Members not found: " ++ String.intercalate ", " missing_members),
                   dest := .toSid request_sid }])
          else
            let res := s.group_manager.create_group group_name admin_name data.members now
            let group := res.2
            let invitations := group.get_members.filterMap fun member_name =>
              if member_name = admin_name then none
              else
                match alookup s.username_to_sid (some member_name) with
                | some member_sid =>
                  if member_sid = "" then none
                  else some { payload := .groupInvitation group.group_id group.name admin_name group.get_members,
                              dest := Dest.toSid member_sid }
                | none => none
            ({ s with group_manager := res.1 },
             ({ payload := .groupCreated group.group_id group.name admin_name group.get_members,
                dest := Dest.toSid request_sid } : Out) :: invitations)

/-- src/app.py `on_send_group_message`.  The group object looked up under
    the request's `group_id` is mutated in place in Python, so the model
    re-stores it under that same key, and the emitted `group_id` field is
    the request's value. -/
def on_send_group_message (request_sid : String) (data : GroupMsgData) (now : Nat)
    (s : ServerState) : ServerState × List Out :=
  let sender_name := (alookup s.clients request_sid).bind ClientRecord.name
  match data.group_id with
  | none =>
    (s, [{ payload := .groupError "Group not found", dest := .toSid request_sid }])
  | some group_id =>
    match s.group_manager.get_group group_id with
    | none =>
      (s, [{ payload := .groupError "Group not found", dest := .toSid request_sid }])
    | some group =>
      if ¬ group.is_member sender_name then
        (s, [{ payload := .groupError "You are not a member of this group", dest := .toSid request_sid }])
      else
        match sender_name with
        | none => (s, [])  -- unreachable: is_member none is false
        | some sender =>
          let group' := group.add_message
            { sender := sender, encrypted_message := data.encrypted_message, timestamp := now }
          let gm' := { s.group_manager with groups := ainsert s.group_manager.groups group_id group' }
          let fanout := group'.get_members.filterMap fun member_name =>
            match alookup s.username_to_sid (some member_name) with
            | some member_sid =>
              if member_sid = "" ∨ member_sid = request_sid then none
              else some { payload := .recvGroupMessage group_id group.name sender data.encrypted_message,
                          dest := Dest.toSid member_sid }
            | none => none
          ({ s with group_manager := gm' }, fanout)

/- ===== Event sequences ===== -/

inductive Event where
  | register (sid : String) (d : RegData)
  | pubkey (sid : String) (d : PubkeyData)
  | disconnect (sid : String)
  | create_group (sid : String) (d : CreateGroupData) (now : Nat)
  | send_group_message (sid : String) (d : GroupMsgData) (now : Nat)
deriving DecidableEq, Repr

def handle : Event → ServerState → ServerState × List Out
  | .register sid d, s => on_register_user sid d s
  | .pubkey sid d, s => on_pubkey sid d s
  | .disconnect sid, s => on_disconnect sid s
  | .create_group sid d now, s => on_create_group sid d now s
  | .send_group_message sid d now, s => on_send_group_message sid d now s

def stepState (s : ServerState) (e : Event) : ServerState := (handle e s).1

def run (s : ServerState) (evs : List Event) : ServerState := evs.foldl stepState s

/-- The three registry-touching events claim C1 ranges over. -/
def registryEvent : Event → Bool
  | .register _ _ => true
  | .pubkey _ _ => true
  | .disconnect _ => true
  | _ => false

/- ===== Specification-level predicates ===== -/

/-- `name` is the display name of some currently connected client record. -/
def registeredNameB (s : ServerState) (name : String) : Bool :=
  s.clients.any fun p => p.2.name = some name

/-- The NameIndex/ClientRecord consistency of spec §3: names index a unique
    handle, that handle's record bears the name, and every named record is
    indexed under its name. -/
def Consistent (s : ServerState) : Prop :=
  keysNodup s.username_to_sid ∧
  (∀ kh ∈ s.username_to_sid,
      kh.1 ≠ none ∧ (alookup s.clients kh.2).bind ClientRecord.name = kh.1) ∧
  (∀ hr ∈ s.clients, hr.2.name ≠ none →
      alookup s.username_to_sid hr.2.name = some hr.1)

instance (s : ServerState) : Decidable (Consistent s) := by
  unfold Consistent; infer_instance

/- ===== Group membership operation sequences (for claim C6) ===== -/

inductive GroupOp where
  | add (member_name : String)
  | remove (member_name : String)
deriving DecidableEq, Repr

def applyOp (g : Group) : GroupOp → Group
  | .add m => (g.add_member m).1
  | .remove m => (g.remove_member m).1

def applyOps (g : Group) : List GroupOp → Group
  | [] => g
  | op :: t => applyOps (applyOp g op) t

theorem applyOp_admin_name (g : Group) (op : GroupOp) :
    (applyOp g op).admin_name = g.admin_name := by
  cases op with
  | add m =>
    by_cases h : m ∈ g.members <;> simp [applyOp, Group.add_member, h]
  | remove m =>
    by_cases h1 : m = g.admin_name
    · simp [applyOp, Group.remove_member, h1]
    · by_cases h2 : m ∈ g.members <;> simp [applyOp, Group.remove_member, h1, h2]

theorem applyOp_admin_mem (g : Group) (op : GroupOp)
    (h : g.admin_name ∈ g.members) : g.admin_name ∈ (applyOp g op).members := by
  cases op with
  | add m =>
    by_cases hm : m ∈ g.members <;> simp [applyOp, Group.add_member, hm, h]
  | remove m =>
    by_cases h1 : m = g.admin_name
    · simp [applyOp, Group.remove_member, h1, h]
    · by_cases h2 : m ∈ g.members
      · simp [applyOp, Group.remove_member, h1, h2]
        exact (List.mem_erase_of_ne fun he => h1 he.symm).mpr h
      · simp [applyOp, Group.remove_member, h1, h2, h]

theorem applyOps_admin_mem (g : Group) (ops : List GroupOp)
    (h : g.admin_name ∈ g.members) : g.admin_name ∈ (applyOps g ops).members := by
  induction ops generalizing g with
  | nil => simpa [applyOps] using h
  | cons op t ih =>
    have h1 : (applyOp g op).admin_name ∈ (applyOp g op).members := by
      rw [applyOp_admin_name]
      exact applyOp_admin_mem g op h
    have h2 := ih (applyOp g op) h1
    rw [applyOp_admin_name] at h2
    simpa [applyOps] using h2

theorem Group.init_members (name admin_name : String) (mns : List String) (now : Nat) :
    (Group.init name admin_name mns now).members =
      if admin_name ∈ mns then mns else mns ++ [admin_name] := by
  cases mns with
  | nil => simp [Group.init]
  | cons a t => simp [Group.init]

/-- Stronger characterisation of `ainsert` membership under distinct keys. -/
theorem mem_ainsert_nodup {α β : Type} [DecidableEq α] {l : List (α × β)}
    (hn : keysNodup l) {a : α} {b : β} {p : α × β} :
    p ∈ ainsert l a b ↔ p = (a, b) ∨ (p ∈ l ∧ p.1 ≠ a) := by
  induction l with
  | nil => simp [ainsert]
  | cons q t ih =>
    obtain ⟨k, v⟩ := q
    obtain ⟨hfresh, hrest⟩ := keysNodup_cons_elim hn
    by_cases hk : k = a
    · subst hk
      constructor
      · intro h
        rcases List.mem_cons.mp (by simpa [ainsert] using h) with h' | h'
        · exact Or.inl h'
        · refine Or.inr ⟨List.mem_cons_of_mem _ h', ?_⟩
          intro hpk
          have hpt : (p.1, p.2) ∈ t := by simpa using h'
          rw [hpk] at hpt
          exact hfresh p.2 hpt
      · rintro (rfl | ⟨hp, hne⟩)
        · simp [ainsert]
        · rcases List.mem_cons.mp hp with h' | h'
          · exact absurd (congrArg Prod.fst h') (by simpa using hne)
          · simp [ainsert]
            exact Or.inr h'
    · constructor
      · intro h
        rcases List.mem_cons.mp (by simpa [ainsert, hk] using h) with h' | h'
        · refine Or.inr ⟨by simp [h'], ?_⟩
          rw [h']
          exact hk
        · rcases (ih hrest).mp h' with h'' | h''
          · exact Or.inl h''
          · exact Or.inr ⟨List.mem_cons_of_mem _ h''.1, h''.2⟩
      · rintro (rfl | ⟨hp, hne⟩)
        · simp [ainsert, hk]
          exact Or.inr ((ih hrest).mpr (Or.inl rfl))
        · rcases List.mem_cons.mp hp with h' | h'
          · simp [ainsert, hk, h']
          · simp [ainsert, hk]
            exact Or.inr ((ih hrest).mpr (Or.inr ⟨h', hne⟩))

/-- Anything in a `peer_pubkeys` snapshot comes from a connected record with
    a truthy key, other than the requester. -/
theorem peer_pubkeys_mem {clients : List (String × ClientRecord)} {j : String}
    {q : String × String} (h : q ∈ peer_pubkeys clients j) :
    ∃ r : ClientRecord, (q.1, r) ∈ clients ∧ r.pubkey = some q.2 ∧ q.1 ≠ j ∧ q.2 ≠ "" := by
  obtain ⟨p, hp, hf⟩ := List.mem_filterMap.mp h
  by_cases hpj : p.1 = j
  · simp [peer_pubkeys, hpj] at hf
  · cases hpk : p.2.pubkey with
    | none => simp [peer_pubkeys, hpj, hpk] at hf
    | some k =>
      by_cases hke : k = ""
      · simp [peer_pubkeys, hpj, hpk, hke] at hf
      · simp [peer_pubkeys, hpj, hpk, hke] at hf
        refine ⟨p.2, ?_, ?_, ?_, ?_⟩
        · rw [← hf]
          simpa using hp
        · rw [← hf]
          simpa using hpk
        · rw [← hf]
          exact hpj
        · rw [← hf]
          exact hke

/- ===== Claim theorems ===== -/

/-- C5: for every group name, admin name and member-name list, the group
    returned by `GroupManager.create_group` has member set exactly the
    union of the member names and the admin name, whether or not the
    admin was already listed. -/
theorem create_group_member_set (gm : GroupManager) (name admin_name : String)
    (member_names : List String) (now : Nat) (x : String) :
    x ∈ (gm.create_group name admin_name member_names now).2.members ↔
      x ∈ member_names ∨ x = admin_name := by
  show x ∈ (Group.init name admin_name member_names now).members ↔ _
  rw [Group.init_members]
  by_cases ha : admin_name ∈ member_names
  · rw [if_pos ha]
    exact ⟨Or.inl, fun h => h.elim id fun hx => hx ▸ ha⟩
  · rw [if_neg ha]
    simp

/-- C6: `remove_member` on the admin always fails and leaves the group
    unchanged, a created group contains its admin, and after any sequence
    of add/remove operations the admin is still a member. -/
theorem remove_member_admin_unremovable :
    (∀ g : Group, g.remove_member g.admin_name = (g, false)) ∧
    (∀ (name admin_name : String) (mns : List String) (now : Nat),
        admin_name ∈ (Group.init name admin_name mns now).members) ∧
    (∀ (g : Group) (ops : List GroupOp), g.admin_name ∈ g.members →
        g.admin_name ∈ (applyOps g ops).members) := by
  refine ⟨?_, ?_, fun g ops h => applyOps_admin_mem g ops h⟩
  · intro g
    simp [Group.remove_member]
  · intro name admin_name mns now
    rw [Group.init_members]
    by_cases ha : admin_name ∈ mns
    · rwa [if_pos ha]
    · rw [if_neg ha]
      simp

/-- Witness for C6's third conjunct at a concrete group and op list. -/
theorem remove_member_admin_unremovable_witness :
    ("a" ∈ (Group.mk "g" "a" ["a", "b"] "id" [] 0).members) ∧
    ("a" ∈ (applyOps (Group.mk "g" "a" ["a", "b"] "id" [] 0)
        [.remove "b", .add "c", .remove "a"]).members) :=
  ⟨by decide,
   remove_member_admin_unremovable.2.2 (Group.mk "g" "a" ["a", "b"] "id" [] 0)
     [.remove "b", .add "c", .remove "a"] (by decide)⟩

/-- C8: re-publishing the identical key event for the same handle leaves the
    whole registry state unchanged, so the `peer_pubkeys` snapshot any
    subsequently-joining client computes is unchanged as well. -/
theorem on_pubkey_idempotent (s : ServerState) (request_sid : String) (d : PubkeyData) :
    (on_pubkey request_sid d (on_pubkey request_sid d s).1).1 = (on_pubkey request_sid d s).1 ∧
    ∀ j : String,
      peer_pubkeys (on_pubkey request_sid d (on_pubkey request_sid d s).1).1.clients j =
        peer_pubkeys (on_pubkey request_sid d s).1.clients j := by
  have hstate :
      (on_pubkey request_sid d (on_pubkey request_sid d s).1).1 = (on_pubkey request_sid d s).1 := by
    cases hc : alookup s.clients request_sid with
    | some r =>
      have h1 : (on_pubkey request_sid d s).1 =
          { s with clients := ainsert s.clients request_sid { r with pubkey := d.pubkey } } := by
        simp [on_pubkey, hc]
      have hlook : alookup (ainsert s.clients request_sid { r with pubkey := d.pubkey }) request_sid
          = some { r with pubkey := d.pubkey } := alookup_ainsert_self _ _ _
      rw [h1]
      simp only [on_pubkey, hlook]
      have : ainsert (ainsert s.clients request_sid { r with pubkey := d.pubkey }) request_sid
          { r with pubkey := d.pubkey } =
          ainsert s.clients request_sid { r with pubkey := d.pubkey } :=
        ainsert_of_alookup_eq _ _ _ hlook
      simp [this]
    | none =>
      have h1 : (on_pubkey request_sid d s).1 =
          { s with clients := ainsert s.clients request_sid { name := d.name, pubkey := d.pubkey },
                   username_to_sid := ainsert s.username_to_sid d.name request_sid } := by
        simp [on_pubkey, hc]
      have hlook : alookup
          (ainsert s.clients request_sid { name := d.name, pubkey := d.pubkey }) request_sid
          = some { name := d.name, pubkey := d.pubkey } := alookup_ainsert_self _ _ _
      rw [h1]
      simp only [on_pubkey, hlook]
      have : ainsert (ainsert s.clients request_sid { name := d.name, pubkey := d.pubkey })
          request_sid { name := d.name, pubkey := d.pubkey } =
          ainsert s.clients request_sid { name := d.name, pubkey := d.pubkey } :=
        ainsert_of_alookup_eq _ _ _ hlook
      simp [this]
  exact ⟨hstate, fun j => by rw [hstate]⟩

/-- C9 counterexample: a `pubkey` event with no name field from an unknown
    handle is not a no-op — it creates a client record (with `None` name)
    and so changes the Connection Registry. -/
theorem malformed_pubkey_changes_state :
    (on_pubkey "h1" { name := none, pubkey := some "k" } initState).1 ≠ initState := by
  decide

/-- C9 amended: a `register_user` event whose name field is missing or
    empty is a genuine no-op — state untouched, nothing emitted. -/
theorem malformed_register_noop (request_sid : String) (s : ServerState) :
    on_register_user request_sid { name := none } s = (s, []) ∧
    on_register_user request_sid { name := some "" } s = (s, []) := by
  constructor <;> simp [on_register_user]

/-- C10: a successful re-register of an already-connected handle resets its
    record to `{name: username, pubkey: None}`, so the handle drops out of
    every later `peer_pubkeys` snapshot until it publishes again. -/
theorem reregister_clears_pubkey (s : ServerState) (request_sid u : String)
    (r : ClientRecord) (k : String)
    (hn : keysNodup s.clients)
    (hc : alookup s.clients request_sid = some r)
    (hk : r.pubkey = some k)
    (hu : u ≠ "")
    (hsucc : alookup s.username_to_sid (some u) = none ∨
        alookup s.username_to_sid (some u) = some request_sid) :
    alookup (on_register_user request_sid { name := some u } s).1.clients request_sid =
      some { name := some u, pubkey := none } ∧
    ∀ j : String,
      request_sid ∉ (peer_pubkeys (on_register_user request_sid { name := some u } s).1.clients j).map
        Prod.fst := by
  have hstep : (on_register_user request_sid { name := some u } s).1 =
      (registerOk request_sid u s).1 := by
    rcases hsucc with h | h <;> simp [on_register_user, hu, h]
  rw [hstep]
  constructor
  · exact alookup_ainsert_self _ _ _
  · intro j hmem
    obtain ⟨q, hq, hqf⟩ := List.mem_map.mp hmem
    obtain ⟨r', hr', hrpk, _, _⟩ := peer_pubkeys_mem hq
    rw [hqf] at hr'
    rcases (mem_ainsert_nodup hn).mp hr' with h' | h'
    · have : r' = { name := some u, pubkey := none } := congrArg Prod.snd h'
      rw [this] at hrpk
      simp at hrpk
    · exact h'.2 rfl

/-- Witness for C10 at a concrete registered-and-keyed state. -/
theorem reregister_clears_pubkey_witness :
    (keysNodup [("h1", ClientRecord.mk (some "alice") (some "K"))] ∧
      alookup [("h1", ClientRecord.mk (some "alice") (some "K"))] "h1" =
        some (ClientRecord.mk (some "alice") (some "K")) ∧
      ("alice" : String) ≠ "") ∧
    (alookup (on_register_user "h1" { name := some "alice" }
        (ServerState.mk [("h1", ClientRecord.mk (some "alice") (some "K"))]
          [(some "alice", "h1")] (GroupManager.mk [] 86400))).1.clients "h1" =
      some { name := some "alice", pubkey := none } ∧
    ∀ j : String,
      "h1" ∉ (peer_pubkeys (on_register_user "h1" { name := some "alice" }
        (ServerState.mk [("h1", ClientRecord.mk (some "alice") (some "K"))]
          [(some "alice", "h1")] (GroupManager.mk [] 86400))).1.clients j).map Prod.fst) :=
  ⟨⟨by decide, by decide, by decide⟩,
   reregister_clears_pubkey
     (ServerState.mk [("h1", ClientRecord.mk (some "alice") (some "K"))]
       [(some "alice", "h1")] (GroupManager.mk [] 86400))
     "h1" "alice" (ClientRecord.mk (some "alice") (some "K")) "K"
     (by decide) (by decide) (by decide) (by decide) (Or.inr (by decide))⟩

/-- C7: disconnecting a handle removes its (truthy) display name from the
    NameIndex, after which a register of that same name by any handle
    succeeds — record installed and confirmation (not NameTaken) emitted. -/
theorem disconnect_frees_name (s : ServerState) (h : String) (r : ClientRecord) (u : String)
    (hc : alookup s.clients h = some r) (hname : r.name = some u) (hu : u ≠ "") :
    alookup (on_disconnect h s).1.username_to_sid (some u) = none ∧
    ∀ h2 : String,
      alookup (on_register_user h2 { name := some u } (on_disconnect h s).1).1.clients h2 =
        some { name := some u, pubkey := none } ∧
      (on_register_user h2 { name := some u } (on_disconnect h s).1).2.head? =
        some { payload := .registrationConfirmed u, dest := .toSid h2 } := by
  have hnone : alookup (on_disconnect h s).1.username_to_sid (some u) = none := by
    have hstep : (on_disconnect h s).1 =
        { s with clients := aerase s.clients h,
                 username_to_sid := aerase s.username_to_sid (some u) } := by
      simp [on_disconnect, hc, hname, hu]
    rw [hstep]
    exact alookup_aerase_self _ _
  refine ⟨hnone, fun h2 => ?_⟩
  have hreg : on_register_user h2 { name := some u } (on_disconnect h s).1 =
      registerOk h2 u (on_disconnect h s).1 := by
    simp [on_register_user, hu, hnone]
  rw [hreg]
  exact ⟨alookup_ainsert_self _ _ _, rfl⟩

/-- Witness for C7: a concrete connected, named handle. -/
theorem disconnect_frees_name_witness :
    (alookup [("h1", ClientRecord.mk (some "alice") none)] "h1" =
        some (ClientRecord.mk (some "alice") none) ∧
      (ClientRecord.mk (some "alice") none).name = some "alice" ∧ ("alice" : String) ≠ "") ∧
    (alookup (on_disconnect "h1"
        (ServerState.mk [("h1", ClientRecord.mk (some "alice") none)]
          [(some "alice", "h1")] (GroupManager.mk [] 86400))).1.username_to_sid (some "alice") = none ∧
    ∀ h2 : String,
      alookup (on_register_user h2 { name := some "alice" } (on_disconnect "h1"
        (ServerState.mk [("h1", ClientRecord.mk (some "alice") none)]
          [(some "alice", "h1")] (GroupManager.mk [] 86400))).1).1.clients h2 =
        some { name := some "alice", pubkey := none } ∧
      (on_register_user h2 { name := some "alice" } (on_disconnect "h1"
        (ServerState.mk [("h1", ClientRecord.mk (some "alice") none)]
          [(some "alice", "h1")] (GroupManager.mk [] 86400))).1).2.head? =
        some { payload := .registrationConfirmed "alice", dest := .toSid h2 }) :=
  ⟨⟨by decide, by decide, by decide⟩,
   disconnect_frees_name
     (ServerState.mk [("h1", ClientRecord.mk (some "alice") none)]
       [(some "alice", "h1")] (GroupManager.mk [] 86400))
     "h1" (ClientRecord.mk (some "alice") none) "alice"
     (by decide) (by decide) (by decide)⟩

/-- C4 counterexample: after `h1` registers "alice", re-registers as "bob"
    and disconnects, no client is connected at all, yet a register of
    "alice" by `h2` still fails with NameTaken (the stale index entry
    `alice -> h1` survives), refuting "fails exactly when the name is bound
    to a different still-connected handle". -/
theorem register_nametaken_stale_counterexample :
    ((run initState [.register "h1" { name := some "alice" },
        .register "h1" { name := some "bob" }, .disconnect "h1"]).clients = []) ∧
    (on_register_user "h2" { name := some "alice" }
        (run initState [.register "h1" { name := some "alice" },
          .register "h1" { name := some "bob" }, .disconnect "h1"])) =
      (run initState [.register "h1" { name := some "alice" },
          .register "h1" { name := some "bob" }, .disconnect "h1"],
       [{ payload := .registrationError "Username already taken", dest := .toSid "h2" }]) := by
  decide

/-- C4 amended: for a truthy name, register fails with NameTaken exactly
    when the NameIndex binds the name to a different handle — connected or
    not; on failure the error goes to the sender only and the state is
    unchanged, on success the sender is confirmed, the record installed and
    the presence snapshot broadcast. -/
theorem register_nametaken_iff (s : ServerState) (request_sid u : String) (hu : u ≠ "") :
    ((on_register_user request_sid { name := some u } s).2 =
        [{ payload := .registrationError "Username already taken", dest := .toSid request_sid }] ↔
      ∃ h', alookup s.username_to_sid (some u) = some h' ∧ h' ≠ request_sid) ∧
    (∀ h', alookup s.username_to_sid (some u) = some h' → h' ≠ request_sid →
      on_register_user request_sid { name := some u } s =
        (s, [{ payload := .registrationError "Username already taken", dest := .toSid request_sid }])) ∧
    ((alookup s.username_to_sid (some u) = none ∨
        alookup s.username_to_sid (some u) = some request_sid) →
      alookup (on_register_user request_sid { name := some u } s).1.clients request_sid =
          some { name := some u, pubkey := none } ∧
        alookup (on_register_user request_sid { name := some u } s).1.username_to_sid (some u) =
          some request_sid ∧
        (on_register_user request_sid { name := some u } s).2 =
          [{ payload := .registrationConfirmed u, dest := .toSid request_sid },
           { payload := .userList (user_map (ainsert s.clients request_sid
               { name := some u, pubkey := none })), dest := .broadcastAll }]) := by
  have hfail : ∀ h', alookup s.username_to_sid (some u) = some h' → h' ≠ request_sid →
      on_register_user request_sid { name := some u } s =
        (s, [{ payload := .registrationError "Username already taken", dest := .toSid request_sid }]) := by
    intro h' hh' hne
    simp [on_register_user, hu, hh', hne]
  have hok : (alookup s.username_to_sid (some u) = none ∨
      alookup s.username_to_sid (some u) = some request_sid) →
      on_register_user request_sid { name := some u } s = registerOk request_sid u s := by
    intro hsucc
    rcases hsucc with h | h <;> simp [on_register_user, hu, h]
  refine ⟨?_, hfail, fun hsucc => ?_⟩
  · constructor
    · intro hout
      by_contra hP
      push_neg at hP
      have hcase : alookup s.username_to_sid (some u) = none ∨
          alookup s.username_to_sid (some u) = some request_sid := by
        cases hl : alookup s.username_to_sid (some u) with
        | none => exact Or.inl rfl
        | some owner => exact Or.inr (by rw [hP owner hl])
      rw [hok hcase] at hout
      simp [registerOk] at hout
    · rintro ⟨h', hh', hne⟩
      rw [hfail h' hh' hne]
  · rw [hok hsucc]
    exact ⟨alookup_ainsert_self _ _ _, alookup_ainsert_self _ _ _, rfl⟩

/-- Witness for C4 at a fresh name and at a taken name. -/
theorem register_nametaken_iff_witness :
    (("bob" : String) ≠ "") ∧
    ((on_register_user "h2" { name := some "bob" }
        (ServerState.mk [("h1", ClientRecord.mk (some "alice") none)]
          [(some "alice", "h1")] (GroupManager.mk [] 86400))).2 =
        [{ payload := .registrationError "Username already taken", dest := .toSid "h2" }] ↔
      ∃ h', alookup [((some "alice" : Option String), "h1")] (some "bob") = some h' ∧ h' ≠ "h2") :=
  ⟨by decide,
   (register_nametaken_iff
     (ServerState.mk [("h1", ClientRecord.mk (some "alice") none)]
       [(some "alice", "h1")] (GroupManager.mk [] 86400))
     "h2" "bob" (by decide)).1⟩

/-- C2 counterexample: "alice" is in the NameIndex only as a stale leftover
    (no connected client is named "alice"), yet `create_group` by "carol"
    with member list ["alice"] succeeds and stores a group instead of
    aborting with the missing-member error. -/
theorem create_group_unregistered_member_counterexample :
    (registeredNameB (run initState [.register "h1" { name := some "alice" },
        .register "h1" { name := some "bob" }, .disconnect "h1",
        .register "h4" { name := some "carol" }]) "alice" = false) ∧
    ("alice" ∈ ({ name := some "g", members := ["alice"] } : CreateGroupData).members) ∧
    ((on_create_group "h4" { name := some "g", members := ["alice"] } 0
        (run initState [.register "h1" { name := some "alice" },
          .register "h1" { name := some "bob" }, .disconnect "h1",
          .register "h4" { name := some "carol" }])).1.group_manager.groups ≠
      (run initState [.register "h1" { name := some "alice" },
        .register "h1" { name := some "bob" }, .disconnect "h1",
        .register "h4" { name := some "carol" }]).group_manager.groups) := by
  decide

/-- C2 amended: when at least one requested member name is absent from the
    NameIndex, `create_group` aborts as a whole: the only output is one
    error to the sender listing exactly the names missing from the index,
    and the state — in particular the group store — is unchanged. -/
theorem create_group_missing_members_abort (s : ServerState) (request_sid : String)
    (d : CreateGroupData) (now : Nat) (admin_name : String)
    (hadmin : (alookup s.clients request_sid).bind ClientRecord.name = some admin_name)
    (hadmin' : admin_name ≠ "")
    (gname : String) (hgn : d.name = some gname) (hgn' : gname ≠ "")
    (hmem : d.members ≠ [])
    (hmissing : d.members.filter (fun m => (alookup s.username_to_sid (some m)).isNone) ≠ []) :
    on_create_group request_sid d now s =
      (s, [{ payload := .groupError ("Members not found: " ++ String.intercalate ", "
               (d.members.filter fun m => (alookup s.username_to_sid (some m)).isNone)),
             dest := .toSid request_sid }]) ∧
    ∀ m : String,
      m ∈ d.members.filter (fun m => (alookup s.username_to_sid (some m)).isNone) ↔
        m ∈ d.members ∧ alookup s.username_to_sid (some m) = none := by
  constructor
  · simp [on_create_group, hadmin, hadmin', hgn, hgn', hmem, hmissing]
  · intro m
    simp [List.mem_filter, Option.isNone_iff_eq_none]

/-- Witness for C2's amended abort at a concrete state with a missing member. -/
theorem create_group_missing_members_abort_witness :
    (((alookup [("h4", ClientRecord.mk (some "carol") none)] "h4").bind ClientRecord.name =
        some "carol") ∧
      (["bob", "carol"].filter
        (fun m => (alookup [((some "carol" : Option String), "h4")] (some m)).isNone) ≠ [])) ∧
    (on_create_group "h4" { name := some "team", members := ["bob", "carol"] } 5
        (ServerState.mk [("h4", ClientRecord.mk (some "carol") none)]
          [(some "carol", "h4")] (GroupManager.mk [] 86400)) =
      (ServerState.mk [("h4", ClientRecord.mk (some "carol") none)]
          [(some "carol", "h4")] (GroupManager.mk [] 86400),
       [{ payload := .groupError ("Members not found: " ++ String.intercalate ", "
            (["bob", "carol"].filter
              (fun m => (alookup [((some "carol" : Option String), "h4")] (some m)).isNone))),
          dest := .toSid "h4" }]) ∧
    ∀ m : String,
      m ∈ ["bob", "carol"].filter
          (fun m => (alookup [((some "carol" : Option String), "h4")] (some m)).isNone) ↔
        m ∈ ["bob", "carol"] ∧
          alookup [((some "carol" : Option String), "h4")] (some m) = none) :=
  ⟨⟨by decide, by decide⟩,
   create_group_missing_members_abort
     (ServerState.mk [("h4", ClientRecord.mk (some "carol") none)]
       [(some "carol", "h4")] (GroupManager.mk [] 86400))
     "h4" { name := some "team", members := ["bob", "carol"] } 5 "carol"
     (by decide) (by decide) "team" (by decide) (by decide) (by decide) (by decide)⟩

/- ===== C1: NameIndex / ClientRecord consistency ===== -/

/-- A successful re-register keeps the handle's current name (if it has
    one).  Violating this is exactly what produces stale index entries. -/
def registerNameOk (s : ServerState) (sid u : String) : Bool :=
  (alookup s.clients sid).bind ClientRecord.name == none ||
    (alookup s.clients sid).bind ClientRecord.name == some u

/-- The registry events that preserve consistency: a register may not
    silently rename a handle, and a pubkey from an unknown handle must
    carry a fresh non-empty name. -/
def admissibleB (s : ServerState) : Event → Bool
  | .register sid d =>
    match d.name with
    | none => true
    | some u =>
      if u = "" then true
      else
        match alookup s.username_to_sid (some u) with
        | some h' => if h' = sid then registerNameOk s sid u else true
        | none => registerNameOk s sid u
  | .pubkey sid d =>
    match alookup s.clients sid with
    | some _ => true
    | none =>
      match d.name with
      | none => false
      | some u => if u = "" then false else (alookup s.username_to_sid (some u)).isNone
  | .disconnect _ => true
  | .create_group _ _ _ => false
  | .send_group_message _ _ _ => false

def admissibleTrace (s : ServerState) : List Event → Bool
  | [] => true
  | e :: es => registryEvent e && admissibleB s e && admissibleTrace (stepState s e) es

/-- Strengthened inductive invariant: distinct keys, no None-keyed index
    entry, every index entry names a connected record bearing that
    (non-empty) name, and every named record is indexed at its name. -/
def Inv (s : ServerState) : Prop :=
  keysNodup s.clients ∧ keysNodup s.username_to_sid ∧
  alookup s.username_to_sid none = none ∧
  (∀ u h, alookup s.username_to_sid (some u) = some h →
      u ≠ "" ∧ (alookup s.clients h).bind ClientRecord.name = some u) ∧
  (∀ h r u, alookup s.clients h = some r → r.name = some u →
      u ≠ "" ∧ alookup s.username_to_sid (some u) = some h)

theorem bind_name_eq_some {clients : List (String × ClientRecord)} {h : String} {u : String} :
    (alookup clients h).bind ClientRecord.name = some u ↔
      ∃ r, alookup clients h = some r ∧ r.name = some u := by
  cases hl : alookup clients h <;> simp [hl]

theorem inv_initState : Inv initState := by
  refine ⟨?_, ?_, ?_, ?_, ?_⟩ <;> simp [initState, keysNodup, alookup]

theorem inv_registerOk (s : ServerState) (sid u : String)
    (hInv : Inv s) (hu : u ≠ "")
    (hguard : ∀ h', alookup s.username_to_sid (some u) = some h' → h' = sid)
    (hnameok : ∀ r, alookup s.clients sid = some r → ∀ u', r.name = some u' → u' = u) :
    Inv (registerOk sid u s).1 := by
  obtain ⟨hnc, hnu, hnone, hidx, hrec⟩ := hInv
  have hcl : (registerOk sid u s).1.clients =
      ainsert s.clients sid { name := some u, pubkey := none } := rfl
  have hut : (registerOk sid u s).1.username_to_sid =
      ainsert s.username_to_sid (some u) sid := rfl
  refine ⟨?_, ?_, ?_, ?_, ?_⟩
  · rw [hcl]
    exact keysNodup_ainsert _ _ _ hnc
  · rw [hut]
    exact keysNodup_ainsert _ _ _ hnu
  · rw [hut, alookup_ainsert_ne _ _ (by simp)]
    exact hnone
  · intro u' h hl
    rw [hut] at hl
    by_cases huu : u' = u
    · subst huu
      rw [alookup_ainsert_self] at hl
      obtain rfl : sid = h := Option.some_inj.mp hl
      refine ⟨hu, ?_⟩
      rw [hcl, alookup_ainsert_self]
      rfl
    · rw [alookup_ainsert_ne _ _ (by simpa using huu)] at hl
      obtain ⟨hne, hb⟩ := hidx u' h hl
      refine ⟨hne, ?_⟩
      rw [hcl]
      by_cases hhs : h = sid
      · subst hhs
        obtain ⟨r, hr, hrn⟩ := bind_name_eq_some.mp hb
        exact absurd (hnameok r hr u' hrn) huu
      · rw [alookup_ainsert_ne _ _ hhs]
        exact hb
  · intro h r' u' hl hn
    rw [hcl] at hl
    by_cases hhs : h = sid
    · subst hhs
      rw [alookup_ainsert_self] at hl
      obtain rfl : ({ name := some u, pubkey := none } : ClientRecord) = r' :=
        Option.some_inj.mp hl
      obtain rfl : u = u' := Option.some_inj.mp hn
      refine ⟨hu, ?_⟩
      rw [hut, alookup_ainsert_self]
    · rw [alookup_ainsert_ne _ _ hhs] at hl
      obtain ⟨hne, hl'⟩ := hrec h r' u' hl hn
      refine ⟨hne, ?_⟩
      rw [hut]
      by_cases huu : u' = u
      · subst huu
        exact absurd (hguard h hl') hhs
      · rw [alookup_ainsert_ne _ _ (by simpa using huu)]
        exact hl'

theorem inv_register (s : ServerState) (sid : String) (d : RegData)
    (hInv : Inv s) (hAdm : admissibleB s (.register sid d) = true) :
    Inv (on_register_user sid d s).1 := by
  cases hd : d.name with
  | none =>
    have : (on_register_user sid d s).1 = s := by simp [on_register_user, hd]
    rwa [this]
  | some u =>
    by_cases hu : u = ""
    · subst hu
      have : (on_register_user sid d s).1 = s := by simp [on_register_user, hd]
      rwa [this]
    · have hNameOkImp : registerNameOk s sid u = true →
          ∀ r, alookup s.clients sid = some r → ∀ u', r.name = some u' → u' = u := by
        intro hok r hr u' hu'
        have hb : (alookup s.clients sid).bind ClientRecord.name = some u' := by
          rw [hr]
          exact hu'
        simp only [registerNameOk, hb] at hok
        simpa using hok
      cases hl : alookup s.username_to_sid (some u) with
      | some h' =>
        by_cases hh : h' = sid
        · rw [hh] at hl
          have hok : registerNameOk s sid u = true := by
            rw [admissibleB, hd] at hAdm
            simpa [hu, hl] using hAdm
          have hstep : (on_register_user sid d s).1 = (registerOk sid u s).1 := by
            simp [on_register_user, hd, hu, hl]
          rw [hstep]
          exact inv_registerOk s sid u hInv hu
            (fun h'' hl'' => (Option.some_inj.mp (hl.symm.trans hl'')).symm) (hNameOkImp hok)
        · have : (on_register_user sid d s).1 = s := by
            simp [on_register_user, hd, hu, hl, hh]
          rwa [this]
      | none =>
        have hok : registerNameOk s sid u = true := by
          rw [admissibleB, hd] at hAdm
          simpa [hu, hl] using hAdm
        have hstep : (on_register_user sid d s).1 = (registerOk sid u s).1 := by
          simp [on_register_user, hd, hu, hl]
        rw [hstep]
        exact inv_registerOk s sid u hInv hu
          (fun h'' hl'' => absurd (hl.symm.trans hl'') (by simp)) (hNameOkImp hok)

theorem inv_pubkey (s : ServerState) (sid : String) (d : PubkeyData)
    (hInv : Inv s) (hAdm : admissibleB s (.pubkey sid d) = true) :
    Inv (on_pubkey sid d s).1 := by
  obtain ⟨hnc, hnu, hnone, hidx, hrec⟩ := hInv
  cases hc : alookup s.clients sid with
  | some r =>
    have hstep : (on_pubkey sid d s).1 =
        { s with clients := ainsert s.clients sid { r with pubkey := d.pubkey } } := by
      simp [on_pubkey, hc]
    rw [hstep]
    refine ⟨keysNodup_ainsert _ _ _ hnc, hnu, hnone, ?_, ?_⟩
    · intro u' h hl
      obtain ⟨hne, hb⟩ := hidx u' h hl
      refine ⟨hne, ?_⟩
      show (alookup (ainsert s.clients sid { r with pubkey := d.pubkey }) h).bind
        ClientRecord.name = some u'
      by_cases hhs : h = sid
      · subst hhs
        rw [alookup_ainsert_self]
        rw [hc] at hb
        simpa using hb
      · rw [alookup_ainsert_ne _ _ hhs]
        exact hb
    · intro h r' u' hl hn
      by_cases hhs : h = sid
      · subst hhs
        rw [show alookup (ainsert s.clients h { r with pubkey := d.pubkey }) h =
            some { r with pubkey := d.pubkey } from alookup_ainsert_self _ _ _] at hl
        obtain rfl := Option.some_inj.mp hl
        exact hrec h r u' hc (by simpa using hn)
      · rw [show alookup (ainsert s.clients sid { r with pubkey := d.pubkey }) h =
            alookup s.clients h from alookup_ainsert_ne _ _ hhs] at hl
        exact hrec h r' u' hl hn
  | none =>
    obtain ⟨u, hdn, hu, hfresh⟩ :
        ∃ u, d.name = some u ∧ u ≠ "" ∧ alookup s.username_to_sid (some u) = none := by
      rw [admissibleB, hc] at hAdm
      cases hdn : d.name with
      | none => rw [hdn] at hAdm; simp at hAdm
      | some u =>
        rw [hdn] at hAdm
        by_cases hu : u = ""
        · simp [hu] at hAdm
        · exact ⟨u, rfl, hu, by simpa [hu, Option.isNone_iff_eq_none] using hAdm⟩
    have hstep : (on_pubkey sid d s).1 =
        { s with clients := ainsert s.clients sid { name := some u, pubkey := d.pubkey },
                 username_to_sid := ainsert s.username_to_sid (some u) sid } := by
      simp [on_pubkey, hc, hdn]
    rw [hstep]
    refine ⟨keysNodup_ainsert _ _ _ hnc, keysNodup_ainsert _ _ _ hnu, ?_, ?_, ?_⟩
    · rw [show alookup (ainsert s.username_to_sid (some u) sid) none =
          alookup s.username_to_sid none from alookup_ainsert_ne _ _ (by simp)]
      exact hnone
    · intro u' h hl
      by_cases huu : u' = u
      · subst huu
        rw [show alookup (ainsert s.username_to_sid (some u') sid) (some u') = some sid from
          alookup_ainsert_self _ _ _] at hl
        obtain rfl : sid = h := Option.some_inj.mp hl
        refine ⟨hu, ?_⟩
        rw [show alookup (ainsert s.clients sid { name := some u', pubkey := d.pubkey }) sid =
          some { name := some u', pubkey := d.pubkey } from alookup_ainsert_self _ _ _]
        rfl
      · rw [show alookup (ainsert s.username_to_sid (some u) sid) (some u') =
            alookup s.username_to_sid (some u') from
          alookup_ainsert_ne _ _ (by simpa using huu)] at hl
        obtain ⟨hne, hb⟩ := hidx u' h hl
        refine ⟨hne, ?_⟩
        by_cases hhs : h = sid
        · subst hhs
          rw [hc] at hb
          simp at hb
        · rw [show alookup (ainsert s.clients sid { name := some u, pubkey := d.pubkey }) h =
              alookup s.clients h from alookup_ainsert_ne _ _ hhs]
          exact hb
    · intro h r' u' hl hn
      by_cases hhs : h = sid
      · subst hhs
        rw [show alookup (ainsert s.clients h { name := some u, pubkey := d.pubkey }) h =
          some { name := some u, pubkey := d.pubkey } from alookup_ainsert_self _ _ _] at hl
        obtain rfl := Option.some_inj.mp hl
        obtain rfl : u = u' := Option.some_inj.mp hn
        refine ⟨hu, ?_⟩
        rw [show alookup (ainsert s.username_to_sid (some u) h) (some u) = some h from
          alookup_ainsert_self _ _ _]
      · rw [show alookup (ainsert s.clients sid { name := some u, pubkey := d.pubkey }) h =
            alookup s.clients h from alookup_ainsert_ne _ _ hhs] at hl
        obtain ⟨hne, hl'⟩ := hrec h r' u' hl hn
        refine ⟨hne, ?_⟩
        by_cases huu : u' = u
        · subst huu
          rw [hfresh] at hl'
          exact absurd hl' (by simp)
        · rw [show alookup (ainsert s.username_to_sid (some u) sid) (some u') =
              alookup s.username_to_sid (some u') from
            alookup_ainsert_ne _ _ (by simpa using huu)]
          exact hl'

theorem inv_disconnect (s : ServerState) (sid : String) (hInv : Inv s) :
    Inv (on_disconnect sid s).1 := by
  obtain ⟨hnc, hnu, hnone, hidx, hrec⟩ := hInv
  cases hc : alookup s.clients sid with
  | some r =>
    cases hrn : r.name with
    | some u =>
      by_cases hu : u = ""
      · subst hu
        exact absurd (hrec sid r "" hc hrn).1 (by simp)
      · have hstep : (on_disconnect sid s).1 =
            { s with clients := aerase s.clients sid,
                     username_to_sid := aerase s.username_to_sid (some u) } := by
          simp [on_disconnect, hc, hrn, hu]
        rw [hstep]
        refine ⟨keysNodup_aerase _ _ hnc, keysNodup_aerase _ _ hnu, ?_, ?_, ?_⟩
        · rw [show alookup (aerase s.username_to_sid (some u)) none =
            alookup s.username_to_sid none from alookup_aerase_ne _ (by simp)]
          exact hnone
        · intro u' h hl
          by_cases huu : u' = u
          · subst huu
            rw [show alookup (aerase s.username_to_sid (some u')) (some u') = none from
              alookup_aerase_self _ _] at hl
            exact absurd hl (by simp)
          · rw [show alookup (aerase s.username_to_sid (some u)) (some u') =
                alookup s.username_to_sid (some u') from
              alookup_aerase_ne _ (by simpa using huu)] at hl
            obtain ⟨hne, hb⟩ := hidx u' h hl
            refine ⟨hne, ?_⟩
            by_cases hhs : h = sid
            · subst hhs
              rw [hc] at hb
              simp [hrn] at hb
              exact absurd hb.symm huu
            · rw [show alookup (aerase s.clients sid) h = alookup s.clients h from
                alookup_aerase_ne _ hhs]
              exact hb
        · intro h r' u' hl hn
          by_cases hhs : h = sid
          · subst hhs
            rw [show alookup (aerase s.clients h) h = none from
              alookup_aerase_self _ _] at hl
            exact absurd hl (by simp)
          · rw [show alookup (aerase s.clients sid) h = alookup s.clients h from
              alookup_aerase_ne _ hhs] at hl
            obtain ⟨hne, hl'⟩ := hrec h r' u' hl hn
            refine ⟨hne, ?_⟩
            by_cases huu : u' = u
            · subst huu
              have hsid := (hrec sid r u' hc hrn).2
              exact absurd (Option.some_inj.mp (hl'.symm.trans hsid)) hhs
            · rw [show alookup (aerase s.username_to_sid (some u)) (some u') =
                  alookup s.username_to_sid (some u') from
                alookup_aerase_ne _ (by simpa using huu)]
              exact hl'
    | none =>
      have hstep : (on_disconnect sid s).1 = { s with clients := aerase s.clients sid } := by
        simp [on_disconnect, hc, hrn]
      rw [hstep]
      refine ⟨keysNodup_aerase _ _ hnc, hnu, hnone, ?_, ?_⟩
      · intro u' h hl
        obtain ⟨hne, hb⟩ := hidx u' h hl
        refine ⟨hne, ?_⟩
        by_cases hhs : h = sid
        · subst hhs
          rw [hc] at hb
          simp [hrn] at hb
        · rw [show alookup (aerase s.clients sid) h = alookup s.clients h from
            alookup_aerase_ne _ hhs]
          exact hb
      · intro h r' u' hl hn
        by_cases hhs : h = sid
        · subst hhs
          rw [show alookup (aerase s.clients h) h = none from
            alookup_aerase_self _ _] at hl
          exact absurd hl (by simp)
        · rw [show alookup (aerase s.clients sid) h = alookup s.clients h from
            alookup_aerase_ne _ hhs] at hl
          exact hrec h r' u' hl hn
  | none =>
    have hstep : (on_disconnect sid s).1 = { s with clients := aerase s.clients sid } := by
      simp [on_disconnect, hc]
    rw [hstep]
    refine ⟨keysNodup_aerase _ _ hnc, hnu, hnone, ?_, ?_⟩
    · intro u' h hl
      obtain ⟨hne, hb⟩ := hidx u' h hl
      refine ⟨hne, ?_⟩
      by_cases hhs : h = sid
      · subst hhs
        rw [hc] at hb
        simp at hb
      · rw [show alookup (aerase s.clients sid) h = alookup s.clients h from
          alookup_aerase_ne _ hhs]
        exact hb
    · intro h r' u' hl hn
      by_cases hhs : h = sid
      · subst hhs
        rw [show alookup (aerase s.clients h) h = none from
          alookup_aerase_self _ _] at hl
        exact absurd hl (by simp)
      · rw [show alookup (aerase s.clients sid) h = alookup s.clients h from
          alookup_aerase_ne _ hhs] at hl
        exact hrec h r' u' hl hn

theorem inv_step (s : ServerState) (e : Event) (hInv : Inv s)
    (hre : registryEvent e = true) (hAdm : admissibleB s e = true) :
    Inv (stepState s e) := by
  cases e with
  | register sid d => exact inv_register s sid d hInv hAdm
  | pubkey sid d => exact inv_pubkey s sid d hInv hAdm
  | disconnect sid => exact inv_disconnect s sid hInv
  | create_group sid d now => simp [registryEvent] at hre
  | send_group_message sid d now => simp [registryEvent] at hre

theorem inv_run (s : ServerState) (evs : List Event) (hInv : Inv s)
    (hAdm : admissibleTrace s evs = true) : Inv (run s evs) := by
  induction evs generalizing s with
  | nil => simpa [run] using hInv
  | cons e es ih =>
    rw [admissibleTrace] at hAdm
    simp only [Bool.and_eq_true] at hAdm
    obtain ⟨⟨hre, hadm⟩, htr⟩ := hAdm
    have h1 := inv_step s e hInv hre hadm
    have h2 := ih (stepState s e) h1 htr
    simpa [run] using h2

theorem inv_consistent (s : ServerState) (hInv : Inv s) : Consistent s := by
  obtain ⟨hnc, hnu, hnone, hidx, hrec⟩ := hInv
  refine ⟨hnu, ?_, ?_⟩
  · intro kh hkh
    have hl : alookup s.username_to_sid kh.1 = some kh.2 :=
      alookup_of_mem_nodup hnu (by simpa using hkh)
    cases hk : kh.1 with
    | none =>
      rw [hk] at hl
      rw [hnone] at hl
      exact absurd hl (by simp)
    | some u =>
      rw [hk] at hl
      obtain ⟨_, hb⟩ := hidx u kh.2 hl
      exact ⟨by simp, hb⟩
  · intro hr hhr hname
    have hl : alookup s.clients hr.1 = some hr.2 :=
      alookup_of_mem_nodup hnc (by simpa using hhr)
    cases hk : hr.2.name with
    | none => exact absurd hk hname
    | some u =>
      exact (hrec hr.1 hr.2 u hl hk).2

/-- C1 counterexample: the two-event registry trace in which handle `h1`
    registers as "alice" and then re-registers as "bob" leaves the stale
    entry `alice -> h1` in the NameIndex while `h1`'s record reads "bob",
    so the claimed consistency fails after a handler run. -/
theorem registry_consistency_counterexample :
    (∀ e ∈ [Event.register "h1" { name := some "alice" },
        Event.register "h1" { name := some "bob" }], registryEvent e = true) ∧
    ¬ Consistent (run initState [.register "h1" { name := some "alice" },
        .register "h1" { name := some "bob" }]) := by
  decide

/-- C1 amended: the NameIndex/ClientRecord consistency holds after every
    handler run, for every sequence of register_user, pubkey and disconnect
    events in which no handle successfully re-registers under a different
    name and every pubkey from an unknown handle carries a fresh non-empty
    name (`admissibleTrace`). -/
theorem registry_consistency (evs : List Event)
    (hAdm : admissibleTrace initState evs = true) :
    Consistent (run initState evs) :=
  inv_consistent _ (inv_run initState evs inv_initState hAdm)

/- ===== C3: group message fan-out ===== -/

/-- C3 counterexample: on the reachable state below, every member of group
    "gcarol0" ("alice" and "carol") has a connected client record bearing
    its name, the sender "carol" is a member, yet the fan-out delivers to
    nobody (zero distinct recipients instead of |members| - 1 = 1): the
    NameIndex lost "alice" when the handle that had *stolen* that name via
    a pubkey event disconnected. -/
theorem send_group_message_fanout_counterexample :
    ((alookup (run initState [.register "h1" { name := some "alice" },
        .pubkey "h2" { name := some "alice", pubkey := some "k" },
        .register "h4" { name := some "carol" },
        .create_group "h4" { name := some "g", members := ["alice"] } 0,
        .disconnect "h2"]).group_manager.groups "gcarol0").map Group.members =
      some ["alice", "carol"]) ∧
    registeredNameB (run initState [.register "h1" { name := some "alice" },
        .pubkey "h2" { name := some "alice", pubkey := some "k" },
        .register "h4" { name := some "carol" },
        .create_group "h4" { name := some "g", members := ["alice"] } 0,
        .disconnect "h2"]) "alice" = true ∧
    registeredNameB (run initState [.register "h1" { name := some "alice" },
        .pubkey "h2" { name := some "alice", pubkey := some "k" },
        .register "h4" { name := some "carol" },
        .create_group "h4" { name := some "g", members := ["alice"] } 0,
        .disconnect "h2"]) "carol" = true ∧
    ((alookup (run initState [.register "h1" { name := some "alice" },
        .pubkey "h2" { name := some "alice", pubkey := some "k" },
        .register "h4" { name := some "carol" },
        .create_group "h4" { name := some "g", members := ["alice"] } 0,
        .disconnect "h2"]).clients "h4").bind ClientRecord.name = some "carol") ∧
    (on_send_group_message "h4" { group_id := some "gcarol0", encrypted_message := some "m" } 1
      (run initState [.register "h1" { name := some "alice" },
        .pubkey "h2" { name := some "alice", pubkey := some "k" },
        .register "h4" { name := some "carol" },
        .create_group "h4" { name := some "g", members := ["alice"] } 0,
        .disconnect "h2"])).2 = [] := by
  decide

/-- C3 amended: assuming the NameIndex is consistent with the client
    records and holds no empty handles, a group message from a member is
    appended to the log and fanned out to exactly the indexed handles of
    the other members: every other indexed member's handle receives it,
    nothing else is emitted, the sender never receives it, and the number
    of distinct recipients is the number of indexed (connected) members
    minus one — equal to |member set| - 1 when all members are indexed and
    strictly smaller when some member is not. -/
theorem send_group_message_fanout (s : ServerState) (request_sid : String)
    (d : GroupMsgData) (now : Nat) (r : ClientRecord) (u gid : String) (g : Group)
    (hcons : Consistent s)
    (hsids : ∀ kh ∈ s.username_to_sid, kh.2 ≠ "")
    (hc : alookup s.clients request_sid = some r)
    (hname : r.name = some u)
    (hgid : d.group_id = some gid)
    (hg : alookup s.group_manager.groups gid = some g)
    (hmem : u ∈ g.members) :
    alookup (on_send_group_message request_sid d now s).1.group_manager.groups gid =
      some { g with messages := g.messages ++
        [{ sender := u, encrypted_message := d.encrypted_message, timestamp := now }] } ∧
    (∀ m ∈ g.members, m ≠ u → ∀ t, alookup s.username_to_sid (some m) = some t →
      ({ payload := .recvGroupMessage gid g.name u d.encrypted_message,
         dest := .toSid t } : Out) ∈ (on_send_group_message request_sid d now s).2) ∧
    (∀ o ∈ (on_send_group_message request_sid d now s).2,
      ∃ m t, m ∈ g.members ∧ m ≠ u ∧ alookup s.username_to_sid (some m) = some t ∧
        o = { payload := .recvGroupMessage gid g.name u d.encrypted_message,
              dest := .toSid t }) ∧
    (∀ o ∈ (on_send_group_message request_sid d now s).2, o.dest ≠ .toSid request_sid) ∧
    (((on_send_group_message request_sid d now s).2.filterMap
        (fun o => match o.dest with | .toSid t => some t | _ => none)).toFinset.card =
      (g.members.toFinset.filter
        (fun m => (alookup s.username_to_sid (some m)).isSome)).card - 1) ∧
    ((∀ m ∈ g.members, (alookup s.username_to_sid (some m)).isSome) →
      ((on_send_group_message request_sid d now s).2.filterMap
        (fun o => match o.dest with | .toSid t => some t | _ => none)).toFinset.card =
        g.members.toFinset.card - 1) ∧
    ((∃ m ∈ g.members, alookup s.username_to_sid (some m) = none) →
      ((on_send_group_message request_sid d now s).2.filterMap
        (fun o => match o.dest with | .toSid t => some t | _ => none)).toFinset.card <
        g.members.toFinset.card - 1) := by
  obtain ⟨hnu, hidxE, hrecE⟩ := hcons
  have hut_u : alookup s.username_to_sid (some u) = some request_sid := by
    have h := hrecE (request_sid, r) (alookup_mem hc) (by simp [hname])
    simpa [hname] using h
  have hval : ∀ m t, alookup s.username_to_sid (some m) = some t → t ≠ "" :=
    fun m t h => hsids (some m, t) (alookup_mem h)
  have hinj : ∀ m1 m2 t, alookup s.username_to_sid (some m1) = some t →
      alookup s.username_to_sid (some m2) = some t → m1 = m2 := by
    intro m1 m2 t h1 h2
    have e1 := (hidxE (some m1, t) (alookup_mem h1)).2
    have e2 := (hidxE (some m2, t) (alookup_mem h2)).2
    exact Option.some_inj.mp (e1.symm.trans e2)
  have h1 : (on_send_group_message request_sid d now s).1 =
      { s with group_manager := { s.group_manager with
          groups := ainsert s.group_manager.groups gid (g.add_message
            { sender := u, encrypted_message := d.encrypted_message, timestamp := now }) } } := by
    simp [on_send_group_message, hgid, GroupManager.get_group, hg, hc, hname,
      Group.is_member, hmem]
  have h2 : (on_send_group_message request_sid d now s).2 =
      g.members.filterMap (fun member_name =>
        match alookup s.username_to_sid (some member_name) with
        | some member_sid =>
          if member_sid = "" ∨ member_sid = request_sid then none
          else some { payload := .recvGroupMessage gid g.name u d.encrypted_message,
                      dest := Dest.toSid member_sid }
        | none => none) := by
    simp [on_send_group_message, hgid, GroupManager.get_group, hg, hc, hname,
      Group.is_member, hmem, Group.add_message, Group.get_members]
  -- membership in the fan-out list
  have hfmem : ∀ o : Out, o ∈ (on_send_group_message request_sid d now s).2 ↔
      ∃ m t, m ∈ g.members ∧ alookup s.username_to_sid (some m) = some t ∧
        t ≠ "" ∧ t ≠ request_sid ∧
        o = { payload := .recvGroupMessage gid g.name u d.encrypted_message,
              dest := .toSid t } := by
    intro o
    rw [h2, List.mem_filterMap]
    constructor
    · rintro ⟨m, hm, hfm⟩
      cases hl : alookup s.username_to_sid (some m) with
      | none => simp [hl] at hfm
      | some t =>
        by_cases hcond : t = "" ∨ t = request_sid
        · simp [hl, hcond] at hfm
        · push_neg at hcond
          simp [hl, hcond.1, hcond.2] at hfm
          exact ⟨m, t, hm, hl, hcond.1, hcond.2, hfm.symm⟩
    · rintro ⟨m, t, hm, hl, ht1, ht2, rfl⟩
      exact ⟨m, hm, by simp [hl, ht1, ht2]⟩
  have hmne : ∀ m t, alookup s.username_to_sid (some m) = some t → (m ≠ u ↔ t ≠ request_sid) := by
    intro m t hl
    constructor
    · intro hmu ht
      exact hmu (hinj m u request_sid (ht ▸ hl) hut_u)
    · intro ht hm
      rw [hm] at hl
      exact ht (Option.some_inj.mp (hl.symm.trans hut_u))
  -- distinct recipients as a finset image
  have hrecip : ∀ x : String,
      x ∈ ((on_send_group_message request_sid d now s).2.filterMap
        (fun o => match o.dest with | .toSid t => some t | _ => none)) ↔
      ∃ m, m ∈ g.members ∧ m ≠ u ∧ alookup s.username_to_sid (some m) = some x := by
    intro x
    rw [List.mem_filterMap]
    constructor
    · rintro ⟨o, ho, hdo⟩
      obtain ⟨m, t, hm, hl, ht1, ht2, rfl⟩ := (hfmem o).mp ho
      simp only [Option.some_inj] at hdo
      exact ⟨m, hm, (hmne m t hl).mpr ht2, hdo ▸ hl⟩
    · rintro ⟨m, hm, hmu, hl⟩
      refine ⟨{ payload := .recvGroupMessage gid g.name u d.encrypted_message,
                dest := .toSid x }, ?_, rfl⟩
      exact (hfmem _).mpr ⟨m, x, hm, hl, hval m x hl, (hmne m x hl).mp hmu, rfl⟩
  have hC : ∀ m : String,
      m ∈ g.members.toFinset.filter (fun m => (alookup s.username_to_sid (some m)).isSome) ↔
      m ∈ g.members ∧ ∃ t, alookup s.username_to_sid (some m) = some t := by
    intro m
    rw [Finset.mem_filter, List.mem_toFinset, Option.isSome_iff_exists]
  have huC : u ∈ g.members.toFinset.filter
      (fun m => (alookup s.username_to_sid (some m)).isSome) :=
    (hC u).mpr ⟨hmem, request_sid, hut_u⟩
  have hSet : ((on_send_group_message request_sid d now s).2.filterMap
        (fun o => match o.dest with | .toSid t => some t | _ => none)).toFinset =
      ((g.members.toFinset.filter
        (fun m => (alookup s.username_to_sid (some m)).isSome)).erase u).image
        (fun m => (alookup s.username_to_sid (some m)).getD "") := by
    apply Finset.ext
    intro x
    rw [List.mem_toFinset, hrecip, Finset.mem_image]
    constructor
    · rintro ⟨m, hm, hmu, hl⟩
      refine ⟨m, Finset.mem_erase.mpr ⟨hmu, (hC m).mpr ⟨hm, x, hl⟩⟩, ?_⟩
      simp [hl]
    · rintro ⟨m, hme, hx⟩
      obtain ⟨hmu, hmC⟩ := Finset.mem_erase.mp hme
      obtain ⟨hm, t, hl⟩ := (hC m).mp hmC
      refine ⟨m, hm, hmu, ?_⟩
      rw [hl] at hx
      simpa [← hx] using hl
  have hcard : ((on_send_group_message request_sid d now s).2.filterMap
        (fun o => match o.dest with | .toSid t => some t | _ => none)).toFinset.card =
      (g.members.toFinset.filter
        (fun m => (alookup s.username_to_sid (some m)).isSome)).card - 1 := by
    rw [hSet]
    rw [Finset.card_image_of_injOn, Finset.card_erase_of_mem huC]
    intro m1 hm1 m2 hm2 he
    obtain ⟨_, hm1C⟩ := Finset.mem_erase.mp hm1
    obtain ⟨_, hm2C⟩ := Finset.mem_erase.mp hm2
    obtain ⟨_, t1, hl1⟩ := (hC m1).mp hm1C
    obtain ⟨_, t2, hl2⟩ := (hC m2).mp hm2C
    simp only [hl1, hl2, Option.getD_some] at he
    exact hinj m1 m2 t2 (he ▸ hl1) hl2
  refine ⟨?_, ?_, ?_, ?_, hcard, ?_, ?_⟩
  · rw [h1]
    show alookup (ainsert s.group_manager.groups gid _) gid = _
    rw [alookup_ainsert_self]
    rfl
  · intro m hm hmu t hl
    exact (hfmem _).mpr ⟨m, t, hm, hl, hval m t hl, (hmne m t hl).mp hmu, rfl⟩
  · intro o ho
    obtain ⟨m, t, hm, hl, ht1, ht2, rfl⟩ := (hfmem o).mp ho
    exact ⟨m, t, hm, (hmne m t hl).mpr ht2, hl, rfl⟩
  · intro o ho hdest
    obtain ⟨m, t, hm, hl, ht1, ht2, rfl⟩ := (hfmem o).mp ho
    exact ht2 (by simpa using hdest)
  · intro hall
    have hfull : g.members.toFinset.filter
        (fun m => (alookup s.username_to_sid (some m)).isSome) = g.members.toFinset :=
      Finset.filter_true_of_mem (fun m hm => hall m (List.mem_toFinset.mp hm))
    rw [hcard, hfull]
  · rintro ⟨m0, hm0, hl0⟩
    have hm0ne : m0 ∉ g.members.toFinset.filter
        (fun m => (alookup s.username_to_sid (some m)).isSome) := by
      intro hin
      obtain ⟨_, t, hl⟩ := (hC m0).mp hin
      rw [hl0] at hl
      exact absurd hl (by simp)
    have hlt : (g.members.toFinset.filter
        (fun m => (alookup s.username_to_sid (some m)).isSome)).card <
        g.members.toFinset.card := by
      apply Finset.card_lt_card
      rw [Finset.ssubset_iff_of_subset (Finset.filter_subset _ _)]
      exact ⟨m0, List.mem_toFinset.mpr hm0, hm0ne⟩
    have hpos : 1 ≤ (g.members.toFinset.filter
        (fun m => (alookup s.username_to_sid (some m)).isSome)).card :=
      Finset.card_pos.mpr ⟨u, huC⟩
    rw [hcard]
    omega

def fanoutDemoGroup : Group :=
  { name := "team", admin_name := "alice", members := ["alice", "bob"],
    group_id := "gid1", messages := [], created_at := 0 }

def fanoutDemoState : ServerState :=
  { clients := [("s1", { name := some "alice", pubkey := none }),
                ("s2", { name := some "bob", pubkey := none })],
    username_to_sid := [(some "alice", "s1"), (some "bob", "s2")],
    group_manager := { groups := [("gid1", fanoutDemoGroup)], expiration_time := 86400 } }

/-- Witness for C3's amended fan-out theorem at a concrete consistent state. -/
theorem send_group_message_fanout_witness :
    (Consistent fanoutDemoState ∧
      (∀ kh ∈ fanoutDemoState.username_to_sid, kh.2 ≠ "") ∧
      alookup fanoutDemoState.clients "s1" = some { name := some "alice", pubkey := none } ∧
      alookup fanoutDemoState.group_manager.groups "gid1" = some fanoutDemoGroup ∧
      "alice" ∈ fanoutDemoGroup.members) ∧
    alookup (on_send_group_message "s1"
        { group_id := some "gid1", encrypted_message := some "m" } 7
        fanoutDemoState).1.group_manager.groups "gid1" =
      some { fanoutDemoGroup with messages := fanoutDemoGroup.messages ++
        [{ sender := "alice", encrypted_message := some "m", timestamp := 7 }] } :=
  ⟨⟨by decide, by decide, by decide, by decide, by decide⟩,
   (send_group_message_fanout fanoutDemoState "s1"
     { group_id := some "gid1", encrypted_message := some "m" } 7
     { name := some "alice", pubkey := none } "alice" "gid1" fanoutDemoGroup
     (by decide) (by decide) (by decide) (by decide) (by decide) (by decide) (by decide)).1⟩

/-- Witness for C1's amended invariant on a concrete admissible trace. -/
theorem registry_consistency_witness :
    (admissibleTrace initState [.register "h1" { name := some "alice" },
        .pubkey "h2" { name := some "bob", pubkey := some "k" },
        .register "h1" { name := some "alice" }, .disconnect "h1"] = true) ∧
    Consistent (run initState [.register "h1" { name := some "alice" },
        .pubkey "h2" { name := some "bob", pubkey := some "k" },
        .register "h1" { name := some "alice" }, .disconnect "h1"]) :=
  ⟨by decide, registry_consistency _ (by decide)⟩

end PQWA
